import Mathlib

/-!
The program `sacrotate`: fringe stopping, phase subtraction and wrapping.

A shallow embedding of `main` of `src/sacrotate.cc`.

Numbers: the C code computes in floating point with a constant `PI` that is
declared in a header outside this file.  Here the arithmetic is exact, over
an arbitrary linearly ordered field `α`, and `PI` is a parameter.  Taking
`α := ℝ` and `PI := Real.pi` gives the reading over the reals; taking
`α := ℚ` gives an executable instance.
-/

set_option autoImplicit false

namespace Sacrotate

/-! ## The wrap of lines 145 and 146 -/

section Wrap

variable {α : Type} [LinearOrderedField α]

/-- Line 145: `phase = phase>=PI ? (-2*PI+phase) : phase`. -/
def wrapHigh (PI : α) (phase : α) : α :=
  if phase ≥ PI then (-2 * PI + phase) else phase

/-- Line 146: `phase = phase<=-PI ? (2*PI+phase) : phase`. -/
def wrapLow (PI : α) (phase : α) : α :=
  if phase ≤ -PI then (2 * PI + phase) else phase

/-- Lines 145 and 146 in sequence: the two conditional adjustments that the
source comments as "Get it as a phase between PI and -PI". -/
def wrapPhase (PI : α) (phase : α) : α :=
  wrapLow PI (wrapHigh PI phase)

/-- Lines 143 to 146 on one sample: subtract the reference phase from the
observed phase, then apply the two conditional adjustments.  The result is
what is stored back into the `phase` field. -/
def correctPhase (PI : α) (observed predicted : α) : α :=
  wrapPhase PI (observed - predicted)

end Wrap

/-! ## The generalised wrap formula of the design notes -/

section SpecWrap

variable {α : Type} [LinearOrderedField α] [FloorRing α]

/-- Rounding to the nearest integer, ties away from zero (the rounding of the
C library function `round`). -/
def roundHalfAway (x : α) : ℤ :=
  if 0 ≤ x then ⌊x + 1 / 2⌋ else ⌈x - 1 / 2⌉

/-- The formula of the design notes, `residual - 2π*round(residual/2π)`,
written from the specification and compared below with `wrapPhase`. -/
def specWrap (PI : α) (d : α) : α :=
  d - 2 * PI * (roundHalfAway (d / (2 * PI)) : α)

end SpecWrap

/-! ## Data and external collaborators -/

/-- Modelled from the spec: the record type `IntegPeriod` is declared in
`IntegPeriod.h`, which is not part of this file.  `main` reads and writes the
three fields below: the time stamp in microseconds, the amplitude and the
phase in radians. -/
structure IntegPeriod (α : Type) where
  timeStamp : Int
  amplitude : α
  phase : α

/-- The constant and the library calls that `main` uses and that are declared
elsewhere: the constant `PI`, `Source::getAzEl`, `Site::getSite` and
`Site::getPhaseResponse`.  They are parameters of the embedding; the calls
are taken to be functions of their arguments. -/
structure Externals (α Src Site Loc AzEl : Type) where
  PI : α
  getAzEl : Src → Int → Loc → AzEl
  getSite : Site → Loc
  getPhaseResponse : Site → AzEl → α

/-- A `float` array declared without initialiser: a cell holds `none` until
it is assigned. -/
abbrev FloatBuf (α : Type) := List (Option α)

/-- The declaration `float buf[n];`. -/
def allocBuf (α : Type) (n : Nat) : FloatBuf α :=
  List.replicate n none

/-- The loop `for (int i=0; i<n; i++) body`, the body acting on a state. -/
def forLoop {σ : Type} (n : Nat) (body : Nat → σ → σ) (s : σ) : σ :=
  (List.range n).foldl (fun st i => body i st) s

/-! ## The three loops of `main` -/

section Loops

variable {α Src Site Loc AzEl : Type} [LinearOrderedField α]

/-- The arrays `temp` and `timedata` of lines 122 and 123. -/
structure PlotBufs (α : Type) where
  temp : FloatBuf α
  timedata : FloatBuf α

/-- Body of the loop of lines 124 to 127:
`temp[i] = _data[i].phase; timedata[i] = _data[i].timeStamp/float(3600000000.0);`.
The index is always below the length of `data`; the first branch is never
taken by `observedLoop`. -/
def observedBody (data : List (IntegPeriod α)) (i : Nat) (b : PlotBufs α) : PlotBufs α :=
  match data[i]? with
  | none => b
  | some d =>
    { temp := b.temp.set i (some d.phase)
      timedata := b.timedata.set i (some ((d.timeStamp : α) / 3600000000)) }

/-- Lines 122 to 127: declare `temp` and `timedata`, fill them from the
observed data. -/
def observedLoop (data : List (IntegPeriod α)) : PlotBufs α :=
  forLoop data.length (observedBody data)
    { temp := allocBuf α data.length, timedata := allocBuf α data.length }

/-- The state the correction loop works on: the samples `_data` and the
array `phasebuf` of line 134. -/
structure LoopState (α : Type) where
  data : List (IntegPeriod α)
  phasebuf : FloatBuf α

/-- The modelled phase of one time stamp, lines 137 to 141:
`_site->getPhaseResponse(_refSource->getAzEl(lst, _site->getSite()))`. -/
def modelPhase (E : Externals α Src Site Loc AzEl) (refSource : Src) (site : Site)
    (timeStamp : Int) : α :=
  let lst := timeStamp
  let azel := E.getAzEl refSource lst (E.getSite site)
  E.getPhaseResponse site azel

/-- Body of the loop of lines 135 to 147.  The index is always below the
length of `st.data`; the first branch is never taken by `correctionLoop`. -/
def correctionBody (E : Externals α Src Site Loc AzEl) (refSource : Src) (site : Site)
    (i : Nat) (st : LoopState α) : LoopState α :=
  match st.data[i]? with
  | none => st
  | some d =>
    let lst := d.timeStamp
    let azel := E.getAzEl refSource lst (E.getSite site)
    let pb := E.getPhaseResponse site azel
    let phasebuf := st.phasebuf.set i (some pb)
    let phase := d.phase - pb
    let phase := if phase ≥ E.PI then (-2 * E.PI + phase) else phase
    let phase := if phase ≤ -E.PI then (2 * E.PI + phase) else phase
    { data := st.data.set i { d with phase := phase }, phasebuf := phasebuf }

/-- Lines 134 to 147: declare `phasebuf`, then sweep the samples in index
order. -/
def correctionLoop (E : Externals α Src Site Loc AzEl) (refSource : Src) (site : Site)
    (data : List (IntegPeriod α)) : LoopState α :=
  forLoop data.length (correctionBody E refSource site)
    { data := data, phasebuf := allocBuf α data.length }

/-- Body of the loop of lines 159 to 161: `temp[i] = _data[i].phase;`. -/
def resultBody (data : List (IntegPeriod α)) (i : Nat) (b : PlotBufs α) : PlotBufs α :=
  match data[i]? with
  | none => b
  | some d => { b with temp := b.temp.set i (some d.phase) }

/-- Lines 159 to 161: the array `temp` is reused for the corrected phases. -/
def resultLoop (data : List (IntegPeriod α)) (b : PlotBufs α) : PlotBufs α :=
  forLoop data.length (resultBody data) b

end Loops

/-! ## The program -/

section Main

variable {α Src Site Loc AzEl : Type} [LinearOrderedField α]

/-- What `IntegPeriod::load(_data, _numData, argv[3])` hands back: its
boolean result and the array it stored in `_data` (`none` for the null
pointer).  The count `_numData` is the length of that array. -/
structure LoadResult (α : Type) where
  ok : Bool
  data : Option (List (IntegPeriod α))

/-- The value of `_numData` after the load. -/
def LoadResult.numData {α : Type} (r : LoadResult α) : Nat :=
  (r.data.getD []).length

/-- Everything `main` obtains from outside: the argument count, the results
of `AstroPointSource::parseSource`, `IntegPeriod::load`, `Site::parseSite`
and `cpgbeg`. -/
structure Inputs (α Src Site : Type) where
  argc : Int
  parseSource : Option Src
  load : LoadResult α
  parseSite : Option Site
  cpgbeg : Int

/-- One call of `plotPoints` on a plot area with its title: the two arrays as
they are at the time of the call. -/
structure PlotCall (α : Type) where
  area : Nat
  title : String
  xs : FloatBuf α
  ys : FloatBuf α

/-- How a run ends: the exit status, the global `_data` and the array
`phasebuf` at that moment (`phasebuf` is empty as long as line 134 has not
been reached), the calls of `plotPoints` so far, and the samples handed to
`writeData` and `writeASCII`. -/
structure Outcome (α : Type) where
  status : Int
  data : Option (List (IntegPeriod α))
  phasebuf : FloatBuf α
  plots : List (PlotCall α)
  written : Option (List (IntegPeriod α))

/-- The calls `exit(1)` of `main`. -/
def exitFailure (data : Option (List (IntegPeriod α))) : Outcome α :=
  { status := 1, data := data, phasebuf := [], plots := [], written := none }

/-- The function `main`, lines 57 to 172.  Messages on the terminal and the
set-up of the plot device are left out. -/
def main (E : Externals α Src Site Loc AzEl) (inp : Inputs α Src Site) : Outcome α :=
  if inp.argc < 10 then exitFailure none
  else
  match inp.parseSource with
  | none => exitFailure none
  | some refSource =>
  let badload := !inp.load.ok
  if badload || inp.load.data.isNone || inp.load.numData == 0 then
    exitFailure inp.load.data
  else
  let data0 := inp.load.data.getD []
  match inp.parseSite with
  | none => exitFailure inp.load.data
  | some site =>
  if inp.cpgbeg ≠ 1 then exitFailure inp.load.data
  else
  let b := observedLoop data0
  let plot0 : PlotCall α :=
    { area := 0, title := "Observed Phases", xs := b.timedata, ys := b.temp }
  let st := correctionLoop E refSource site data0
  let plot1 : PlotCall α :=
    { area := 1, title := "Modelled Phases", xs := b.timedata, ys := st.phasebuf }
  let b2 := resultLoop st.data b
  let plot2 : PlotCall α :=
    { area := 2, title := "Result", xs := b2.timedata, ys := b2.temp }
  { status := 0, data := some st.data, phasebuf := st.phasebuf,
    plots := [plot0, plot1, plot2], written := some st.data }

end Main

/-! ## What one iteration computes -/

section PerSample

variable {α Src Site Loc AzEl : Type} [LinearOrderedField α]

/-- The sample that the correction loop leaves at the place of `d`: the phase
is replaced by the wrapped difference, the other fields are kept. -/
def correctSample (E : Externals α Src Site Loc AzEl) (refSource : Src) (site : Site)
    (d : IntegPeriod α) : IntegPeriod α :=
  { d with phase := correctPhase E.PI d.phase (modelPhase E refSource site d.timeStamp) }

end PerSample

/-! ## A small instrument for concrete runs -/

section Demo

variable {α : Type} [LinearOrderedField α]

/-- A toy instrument: the direction of the source is the time stamp itself, a
site is its phase offset, and the phase response is `azel * PI + offset`. -/
def demoExternals (PI : α) : Externals α Unit α Unit Int :=
  { PI := PI
    getAzEl := fun _ lst _ => lst
    getSite := fun _ => ()
    getPhaseResponse := fun offset azel => (azel : α) * PI + offset }

/-- A run in which every external step succeeds: ten arguments, a parsed
source, the given samples loaded, a site with phase offset zero, and a plot
device that opens. -/
def demoInputs (data : List (IntegPeriod α)) : Inputs α Unit α :=
  { argc := 10
    parseSource := some ()
    load := { ok := true, data := some data }
    parseSite := some 0
    cpgbeg := 1 }

end Demo

/-! ## Loop lemmas -/

section LoopLemmas

theorem forLoop_succ {σ : Type} (n : Nat) (body : Nat → σ → σ) (s : σ) :
    forLoop (n + 1) body s = body n (forLoop n body s) := by
  simp [forLoop, List.range_succ, List.foldl_append]

theorem forLoop_zero {σ : Type} (body : Nat → σ → σ) (s : σ) :
    forLoop 0 body s = s := by
  simp [forLoop]

theorem length_allocBuf (β : Type) (n : Nat) : (allocBuf β n).length = n := by
  simp [allocBuf]

/-- One step of a sweep over `l` that writes `f l[k]` into cell `k` of a
buffer `t` of the same length, whose first `k` cells are already written. -/
theorem set_take_drop {β γ : Type} (l : List β) (t : List γ) (f : β → γ) (k : Nat)
    (hk : k < l.length) (ht : t.length = l.length) :
    ((l.take k).map f ++ t.drop k).set k (f l[k])
      = (l.take (k + 1)).map f ++ t.drop (k + 1) := by
  have hlen : ((l.take k).map f).length = k := by
    simp [List.length_take]; omega
  have hkt : k < t.length := by omega
  rw [List.set_append_right _ _ (by omega), hlen, Nat.sub_self,
    List.drop_eq_getElem_cons hkt, List.take_succ, List.getElem?_eq_getElem hk]
  simp only [List.set_cons_zero, Option.toList, List.map_append, List.map_cons,
    List.map_nil, List.append_assoc, List.singleton_append]

/-- Cell `k` of a half-processed list is still the original one. -/
theorem getElem?_take_drop {β : Type} (l : List β) (f : β → β) (k : Nat)
    (hk : k < l.length) :
    ((l.take k).map f ++ l.drop k)[k]? = some l[k] := by
  have hlen : ((l.take k).map f).length = k := by
    simp [List.length_take]; omega
  rw [List.getElem?_append_right (by omega), hlen, Nat.sub_self,
    List.drop_eq_getElem_cons hk]
  simp only [List.getElem?_cons_zero]

variable {α Src Site Loc AzEl : Type} [LinearOrderedField α]

/-- The state of the correction loop after `k` iterations: the first `k`
samples are corrected and their modelled phases stored, the rest is
untouched. -/
theorem correctionLoop_inv (E : Externals α Src Site Loc AzEl) (refSource : Src)
    (site : Site) (data : List (IntegPeriod α)) (k : Nat) (hk : k ≤ data.length) :
    forLoop k (correctionBody E refSource site)
        { data := data, phasebuf := allocBuf α data.length }
      = { data := (data.take k).map (correctSample E refSource site) ++ data.drop k
          phasebuf := (data.take k).map
                        (fun d => some (modelPhase E refSource site d.timeStamp))
                    ++ (allocBuf α data.length).drop k } := by
  induction k with
  | zero =>
    rw [forLoop_zero]
    simp
  | succ k ih =>
    have hk1 : k < data.length := by omega
    rw [forLoop_succ, ih (by omega)]
    unfold correctionBody
    simp only []
    rw [getElem?_take_drop data _ k hk1]
    simp only []
    rw [← set_take_drop data (allocBuf α data.length) _ k hk1 (length_allocBuf α _),
      ← set_take_drop data data (correctSample E refSource site) k hk1 rfl]
    rfl

/-- The correction loop as a whole: every sample is replaced by its corrected
version, and `phasebuf` holds the modelled phase of every sample. -/
theorem correctionLoop_eq (E : Externals α Src Site Loc AzEl) (refSource : Src)
    (site : Site) (data : List (IntegPeriod α)) :
    correctionLoop E refSource site data
      = { data := data.map (correctSample E refSource site)
          phasebuf := data.map
            (fun d => some (modelPhase E refSource site d.timeStamp)) } := by
  unfold correctionLoop
  rw [correctionLoop_inv E refSource site data data.length (le_refl _)]
  simp [length_allocBuf]

theorem observedLoop_inv (data : List (IntegPeriod α)) (k : Nat) (hk : k ≤ data.length) :
    forLoop k (observedBody data)
        { temp := allocBuf α data.length, timedata := allocBuf α data.length }
      = { temp := (data.take k).map (fun d => some d.phase)
                    ++ (allocBuf α data.length).drop k
          timedata := (data.take k).map
                        (fun d => some ((d.timeStamp : α) / 3600000000))
                    ++ (allocBuf α data.length).drop k } := by
  induction k with
  | zero =>
    rw [forLoop_zero]
    simp
  | succ k ih =>
    have hk1 : k < data.length := by omega
    rw [forLoop_succ, ih (by omega)]
    unfold observedBody
    rw [List.getElem?_eq_getElem hk1]
    simp only []
    rw [← set_take_drop data (allocBuf α data.length) (fun d => some d.phase) k hk1
        (length_allocBuf α _),
      ← set_take_drop data (allocBuf α data.length)
        (fun d => some ((d.timeStamp : α) / 3600000000)) k hk1 (length_allocBuf α _)]

/-- The first loop as a whole: `temp` holds the observed phases and
`timedata` the time stamps in hours. -/
theorem observedLoop_eq (data : List (IntegPeriod α)) :
    observedLoop data
      = { temp := data.map (fun d => some d.phase)
          timedata := data.map (fun d => some ((d.timeStamp : α) / 3600000000)) } := by
  unfold observedLoop
  rw [observedLoop_inv data data.length (le_refl _)]
  simp [length_allocBuf]

theorem resultLoop_inv {β : Type} (data : List (IntegPeriod β)) (b : PlotBufs β)
    (hb : b.temp.length = data.length) (k : Nat) (hk : k ≤ data.length) :
    forLoop k (resultBody data) b
      = { temp := (data.take k).map (fun d => some d.phase) ++ b.temp.drop k
          timedata := b.timedata } := by
  induction k with
  | zero =>
    rw [forLoop_zero]
    simp
  | succ k ih =>
    have hk1 : k < data.length := by omega
    rw [forLoop_succ, ih (by omega)]
    unfold resultBody
    rw [List.getElem?_eq_getElem hk1]
    simp only []
    rw [← set_take_drop data b.temp (fun d => some d.phase) k hk1 hb]

/-- The last loop as a whole: `temp` holds the phases now in the samples,
`timedata` is as before. -/
theorem resultLoop_eq {β : Type} (data : List (IntegPeriod β)) (b : PlotBufs β)
    (hb : b.temp.length = data.length) :
    resultLoop data b
      = { temp := data.map (fun d => some d.phase), timedata := b.timedata } := by
  unfold resultLoop
  rw [resultLoop_inv data b hb data.length (le_refl _)]
  simp [hb.symm]

end LoopLemmas

section WrapLemmas

variable {α : Type} [LinearOrderedField α]

/-- The phase computed by one iteration of the loop body is `correctPhase`. -/
theorem correctPhase_eq (PI observed predicted : α) :
    correctPhase PI observed predicted
      = (if (if observed - predicted ≥ PI then -2 * PI + (observed - predicted)
             else observed - predicted) ≤ -PI
         then 2 * PI + (if observed - predicted ≥ PI then -2 * PI + (observed - predicted)
             else observed - predicted)
         else (if observed - predicted ≥ PI then -2 * PI + (observed - predicted)
             else observed - predicted)) := rfl

/-- Above `PI` only the first adjustment applies. -/
theorem wrapPhase_of_gt {PI d : α} (h : PI < d) : wrapPhase PI d = d - 2 * PI := by
  unfold wrapPhase wrapHigh wrapLow
  split_ifs <;> linarith

/-- At `PI` both adjustments apply and cancel. -/
theorem wrapPhase_self (PI : α) : wrapPhase PI PI = PI := by
  unfold wrapPhase wrapHigh wrapLow
  split_ifs <;> linarith

/-- Strictly between `-PI` and `PI` nothing changes. -/
theorem wrapPhase_of_mem {PI d : α} (h1 : -PI < d) (h2 : d < PI) : wrapPhase PI d = d := by
  unfold wrapPhase wrapHigh wrapLow
  split_ifs <;> linarith

/-- At or below `-PI` only the second adjustment applies. -/
theorem wrapPhase_of_le {PI d : α} (hPI : 0 < PI) (h : d ≤ -PI) :
    wrapPhase PI d = d + 2 * PI := by
  unfold wrapPhase wrapHigh wrapLow
  split_ifs <;> linarith

/-- The result lies in `(-PI, PI]` exactly for `d` in `(-3 PI, 3 PI]`. -/
theorem wrapPhase_mem_iff {PI : α} (hPI : 0 < PI) (d : α) :
    (-PI < wrapPhase PI d ∧ wrapPhase PI d ≤ PI) ↔ (-3 * PI < d ∧ d ≤ 3 * PI) := by
  rcases lt_trichotomy d PI with h | h | h
  · rcases le_or_lt d (-PI) with h2 | h2
    · rw [wrapPhase_of_le hPI h2]
      constructor
      · rintro ⟨a, b⟩; constructor <;> linarith
      · rintro ⟨a, b⟩; constructor <;> linarith
    · rw [wrapPhase_of_mem h2 h]
      constructor
      · rintro ⟨a, b⟩; constructor <;> linarith
      · rintro ⟨a, b⟩; constructor <;> linarith
  · subst h
    rw [wrapPhase_self]
    constructor
    · rintro ⟨a, b⟩; constructor <;> linarith
    · rintro ⟨a, b⟩; constructor <;> linarith
  · rw [wrapPhase_of_gt h]
    constructor
    · rintro ⟨a, b⟩; constructor <;> linarith
    · rintro ⟨a, b⟩; constructor <;> linarith

/-- The quotient `d / (2 PI)` compared with a constant. -/
theorem div_two_pi_lt {PI d c : α} (hPI : 0 < PI) : d / (2 * PI) < c ↔ d < c * (2 * PI) :=
  div_lt_iff₀ (by linarith)

theorem lt_div_two_pi {PI d c : α} (hPI : 0 < PI) : c < d / (2 * PI) ↔ c * (2 * PI) < d :=
  lt_div_iff₀ (by linarith)

theorem div_two_pi_le {PI d c : α} (hPI : 0 < PI) : d / (2 * PI) ≤ c ↔ d ≤ c * (2 * PI) :=
  div_le_iff₀ (by linarith)

theorem le_div_two_pi {PI d c : α} (hPI : 0 < PI) : c ≤ d / (2 * PI) ↔ c * (2 * PI) ≤ d :=
  le_div_iff₀ (by linarith)

end WrapLemmas

section RoundLemmas

variable {α : Type} [LinearOrderedField α] [FloorRing α]

theorem roundHalfAway_eq_one {x : α} (h1 : 1 / 2 ≤ x) (h2 : x < 3 / 2) :
    roundHalfAway x = 1 := by
  unfold roundHalfAway
  rw [if_pos (by linarith), Int.floor_eq_iff]
  constructor <;> push_cast <;> linarith

theorem roundHalfAway_eq_zero {x : α} (h1 : -(1 / 2) < x) (h2 : x < 1 / 2) :
    roundHalfAway x = 0 := by
  unfold roundHalfAway
  split_ifs with h
  · rw [Int.floor_eq_iff]
    constructor <;> push_cast <;> linarith
  · rw [Int.ceil_eq_iff]
    constructor <;> push_cast <;> linarith

theorem roundHalfAway_eq_neg_one {x : α} (h1 : -(3 / 2) < x) (h2 : x ≤ -(1 / 2)) :
    roundHalfAway x = -1 := by
  unfold roundHalfAway
  rw [if_neg (by intro hh; linarith), Int.ceil_eq_iff]
  constructor <;> push_cast <;> linarith

end RoundLemmas

section ProgramLemmas

variable {α Src Site Loc AzEl : Type} [LinearOrderedField α]

/-- The sample at index `i` after the correction loop. -/
theorem correctionLoop_data_getElem? (E : Externals α Src Site Loc AzEl) (refSource : Src)
    (site : Site) (data : List (IntegPeriod α)) (i : Nat) :
    (correctionLoop E refSource site data).data[i]?
      = (data[i]?).map (correctSample E refSource site) := by
  rw [correctionLoop_eq]
  simp

/-- The cell at index `i` of `phasebuf` after the correction loop. -/
theorem correctionLoop_phasebuf_getElem? (E : Externals α Src Site Loc AzEl)
    (refSource : Src) (site : Site) (data : List (IntegPeriod α)) (i : Nat) :
    (correctionLoop E refSource site data).phasebuf[i]?
      = (data[i]?).map (fun d => some (modelPhase E refSource site d.timeStamp)) := by
  rw [correctionLoop_eq]
  simp

/-- A run in which every external step succeeds and at least one sample is
loaded goes through the three loops and returns 0. -/
theorem main_of_success (E : Externals α Src Site Loc AzEl) (inp : Inputs α Src Site)
    (refSource : Src) (site : Site) (ds : List (IntegPeriod α))
    (hargc : 10 ≤ inp.argc) (hsrc : inp.parseSource = some refSource)
    (hok : inp.load.ok = true) (hdata : inp.load.data = some ds) (hne : ds ≠ [])
    (hsite : inp.parseSite = some site) (hplot : inp.cpgbeg = 1) :
    main E inp =
      { status := 0
        data := some (ds.map (correctSample E refSource site))
        phasebuf := ds.map (fun d => some (modelPhase E refSource site d.timeStamp))
        plots :=
          [ { area := 0, title := "Observed Phases"
              xs := ds.map (fun d => some ((d.timeStamp : α) / 3600000000))
              ys := ds.map (fun d => some d.phase) },
            { area := 1, title := "Modelled Phases"
              xs := ds.map (fun d => some ((d.timeStamp : α) / 3600000000))
              ys := ds.map (fun d => some (modelPhase E refSource site d.timeStamp)) },
            { area := 2, title := "Result"
              xs := ds.map (fun d => some ((d.timeStamp : α) / 3600000000))
              ys := ds.map (fun d => some (correctSample E refSource site d).phase) } ]
        written := some (ds.map (correctSample E refSource site)) } := by
  have hlen : ds.length ≠ 0 := by
    intro h; exact hne (List.length_eq_zero.mp h)
  unfold main
  rw [if_neg (by omega), hsrc]
  simp only [hok, hdata, LoadResult.numData, Option.getD_some, Option.isNone_some,
    Bool.not_true, Bool.false_or, beq_iff_eq, hlen, if_false, hsite, hplot, ne_eq,
    not_true_eq_false]
  rw [correctionLoop_eq, observedLoop_eq, resultLoop_eq _ _ (by simp)]
  simp

theorem exitFailure_status_ne_zero {β : Type} (d : Option (List (IntegPeriod β))) :
    (exitFailure d).status ≠ 0 := by
  simp [exitFailure]

/-- A failed, null or empty load ends the run with `exit(1)` right after the
load. -/
theorem main_of_badload (E : Externals α Src Site Loc AzEl) (inp : Inputs α Src Site)
    (h : inp.load.ok = false ∨ inp.load.data = none ∨ inp.load.numData = 0) :
    main E inp = exitFailure none ∨ main E inp = exitFailure inp.load.data := by
  have hc : ((!inp.load.ok) || inp.load.data.isNone || inp.load.numData == 0) = true := by
    rcases h with h | h | h
    · simp [h]
    · simp [h]
    · simp [h]
  unfold main
  by_cases h1 : inp.argc < 10
  · rw [if_pos h1]
    exact Or.inl rfl
  · rw [if_neg h1]
    cases hsrc : inp.parseSource with
    | none => exact Or.inl rfl
    | some refSource =>
      right
      simp only [hc, if_true]

end ProgramLemmas

/-! ## The wrap of the stored residual -/

section WrapClaims

variable {α Src Site Loc AzEl : Type} [LinearOrderedField α]

theorem demoExternals_PI (PI : α) : (demoExternals PI).PI = PI := rfl

/-- The modelled phase of the toy instrument at phase offset zero. -/
theorem modelPhase_demo (PI : α) (t : Int) :
    modelPhase (demoExternals PI) () 0 t = (t : α) * PI := by
  simp [modelPhase, demoExternals]

/-- C1, as stated, fails.  With `PI := π`, one sample of time stamp `-5` and
observed phase `0`, and a modelled phase of `-5π`, the raw difference is `5π`;
the loop stores `3π`, which is not in `(-π, π]`. -/
theorem wrap_invariant_fails_beyond_three_pi :
    modelPhase (demoExternals Real.pi) () 0 (-5) = -5 * Real.pi
    ∧ (correctionLoop (demoExternals Real.pi) () 0
          [{ timeStamp := -5, amplitude := 1, phase := 0 }]).data.map IntegPeriod.phase
        = [3 * Real.pi]
    ∧ ¬ (-Real.pi < 3 * Real.pi ∧ 3 * Real.pi ≤ Real.pi) := by
  have hpi := Real.pi_pos
  have hm : modelPhase (demoExternals Real.pi) () 0 (-5) = -5 * Real.pi := by
    simp [modelPhase, demoExternals]
  refine ⟨hm, ?_, ?_⟩
  · rw [correctionLoop_eq]
    simp only [List.map_cons, List.map_nil, correctSample, correctPhase, hm,
      demoExternals_PI]
    rw [wrapPhase_of_gt (by linarith)]
    congr 1
    ring
  · rintro ⟨_, h⟩
    linarith

/-- C1, amended: for every sample whose raw difference `observed - modelled`
lies in `(-3 PI, 3 PI]`, the phase that the correction loop stores in the
sample lies in `(-PI, PI]`. -/
theorem wrap_invariant_within_three_pi (E : Externals α Src Site Loc AzEl)
    (refSource : Src) (site : Site) (data : List (IntegPeriod α)) (i : Nat)
    (s : IntegPeriod α) (hs : data[i]? = some s)
    (hlo : -3 * E.PI < s.phase - modelPhase E refSource site s.timeStamp)
    (hhi : s.phase - modelPhase E refSource site s.timeStamp ≤ 3 * E.PI) :
    ∃ out, (correctionLoop E refSource site data).data[i]? = some out
      ∧ -E.PI < out.phase ∧ out.phase ≤ E.PI := by
  have hPI : 0 < E.PI := by linarith
  refine ⟨correctSample E refSource site s, ?_, ?_⟩
  · rw [correctionLoop_data_getElem?, hs]
    rfl
  · exact (wrapPhase_mem_iff hPI _).mpr ⟨hlo, hhi⟩

/-- Witness for `wrap_invariant_within_three_pi`: `PI := π`, one sample of
time stamp `0` and observed phase `3π`, modelled phase `0`. -/
theorem wrap_invariant_within_three_pi_witness :
    ∃ out, (correctionLoop (demoExternals Real.pi) () 0
          [{ timeStamp := 0, amplitude := 1, phase := 3 * Real.pi }]).data[0]? = some out
      ∧ -Real.pi < out.phase ∧ out.phase ≤ Real.pi :=
  wrap_invariant_within_three_pi (demoExternals Real.pi) () 0
    [{ timeStamp := 0, amplitude := 1, phase := 3 * Real.pi }] 0
    { timeStamp := 0, amplitude := 1, phase := 3 * Real.pi } rfl
    (by simp [modelPhase, demoExternals]; linarith [Real.pi_pos])
    (by simp [modelPhase, demoExternals])

/-- C2: for every sample whose raw difference `observed - modelled` is at
most one cycle in magnitude, `|d| ≤ 2 PI`, the phase that the correction loop
stores in the sample lies in `(-PI, PI]`. -/
theorem one_wrap_suffices_within_one_cycle (E : Externals α Src Site Loc AzEl)
    (hPI : 0 < E.PI) (refSource : Src) (site : Site) (data : List (IntegPeriod α))
    (i : Nat) (s : IntegPeriod α) (hs : data[i]? = some s)
    (hd : |s.phase - modelPhase E refSource site s.timeStamp| ≤ 2 * E.PI) :
    ∃ out, (correctionLoop E refSource site data).data[i]? = some out
      ∧ -E.PI < out.phase ∧ out.phase ≤ E.PI := by
  have h := abs_le.mp hd
  refine ⟨correctSample E refSource site s, ?_, ?_⟩
  · rw [correctionLoop_data_getElem?, hs]
    rfl
  · exact (wrapPhase_mem_iff hPI _).mpr ⟨by linarith [h.1], by linarith [h.2]⟩

/-- Witness for `one_wrap_suffices_within_one_cycle`: `PI := π`, one sample
of time stamp `1` and observed phase `-π`, modelled phase `π`, raw difference
`-2π`. -/
theorem one_wrap_suffices_within_one_cycle_witness :
    ∃ out, (correctionLoop (demoExternals Real.pi) () 0
          [{ timeStamp := 1, amplitude := 1, phase := -Real.pi }]).data[0]? = some out
      ∧ -Real.pi < out.phase ∧ out.phase ≤ Real.pi :=
  one_wrap_suffices_within_one_cycle (demoExternals Real.pi) Real.pi_pos () 0
    [{ timeStamp := 1, amplitude := 1, phase := -Real.pi }] 0
    { timeStamp := 1, amplitude := 1, phase := -Real.pi } rfl
    (by
      have h : (-Real.pi - modelPhase (demoExternals Real.pi) () 0 1) = -(2 * Real.pi) := by
        simp [modelPhase, demoExternals]; ring
      show |(-Real.pi - modelPhase (demoExternals Real.pi) () 0 1)| ≤ 2 * Real.pi
      rw [h, abs_neg, abs_of_pos (by linarith [Real.pi_pos])])

/-- C3, as stated, fails.  With `PI := π`, a sample of time stamp `0` and
observed phase `4π`, and a modelled phase of `0`, the observed phase equals
the modelled one plus `2π·2`; the loop stores `2π`, not `0`. -/
theorem round_trip_fails_two_cycles :
    (4 * Real.pi = modelPhase (demoExternals Real.pi) () 0 0 + 2 * Real.pi * ((2 : ℤ) : ℝ))
    ∧ (correctionLoop (demoExternals Real.pi) () 0
          [{ timeStamp := 0, amplitude := 1, phase := 4 * Real.pi }]).data.map IntegPeriod.phase
        = [2 * Real.pi]
    ∧ 2 * Real.pi ≠ 0 := by
  have hpi := Real.pi_pos
  have hm : modelPhase (demoExternals Real.pi) () 0 0 = 0 := by
    simp [modelPhase, demoExternals]
  refine ⟨?_, ?_, ?_⟩
  · rw [hm]; push_cast; ring
  · rw [correctionLoop_eq]
    simp only [List.map_cons, List.map_nil, correctSample, correctPhase, hm,
      demoExternals_PI]
    rw [wrapPhase_of_gt (by linarith)]
    congr 1
    ring
  · linarith

/-- C3, amended: for every sample whose observed phase equals the modelled
phase plus `2 PI k` for an integer `k` with `|k| ≤ 1`, the phase that the
correction loop stores in the sample is `0`. -/
theorem round_trip_within_one_cycle (E : Externals α Src Site Loc AzEl)
    (hPI : 0 < E.PI) (refSource : Src) (site : Site) (data : List (IntegPeriod α))
    (i : Nat) (s : IntegPeriod α) (hs : data[i]? = some s) (k : ℤ) (hk : |k| ≤ 1)
    (hobs : s.phase = modelPhase E refSource site s.timeStamp + 2 * E.PI * (k : α)) :
    ∃ out, (correctionLoop E refSource site data).data[i]? = some out
      ∧ out.phase = 0 := by
  refine ⟨correctSample E refSource site s, ?_, ?_⟩
  · rw [correctionLoop_data_getElem?, hs]
    rfl
  · have hd : s.phase - modelPhase E refSource site s.timeStamp = 2 * E.PI * (k : α) := by
      rw [hobs]; ring
    show wrapPhase E.PI (s.phase - modelPhase E refSource site s.timeStamp) = 0
    rw [hd]
    have hk2 := abs_le.mp hk
    have hcases : k = -1 ∨ k = 0 ∨ k = 1 := by omega
    rcases hcases with h | h | h
    · subst h
      rw [wrapPhase_of_le hPI (by push_cast; linarith)]
      push_cast; ring
    · subst h
      rw [wrapPhase_of_mem (by push_cast; linarith) (by push_cast; linarith)]
      push_cast; ring
    · subst h
      rw [wrapPhase_of_gt (by push_cast; linarith)]
      push_cast; ring

/-- Witness for `round_trip_within_one_cycle`: `PI := π`, one sample of time
stamp `1` and observed phase `-π`, modelled phase `π`, `k = -1`. -/
theorem round_trip_within_one_cycle_witness :
    ∃ out, (correctionLoop (demoExternals Real.pi) () 0
          [{ timeStamp := 1, amplitude := 1, phase := -Real.pi }]).data[0]? = some out
      ∧ out.phase = 0 :=
  round_trip_within_one_cycle (demoExternals Real.pi) Real.pi_pos () 0
    [{ timeStamp := 1, amplitude := 1, phase := -Real.pi }] 0
    { timeStamp := 1, amplitude := 1, phase := -Real.pi } rfl (-1) (by decide)
    (by simp [modelPhase, demoExternals]; ring)

/-- C9: for every raw difference `d`, the two adjustments of lines 145 and
146 change `d` by `-2 PI`, `0` or `2 PI`; both conditions hold exactly when
`d = PI`, and then the adjustments cancel: the result is `PI` again. -/
theorem wrap_preserves_phase_mod_two_pi (PI d : α) :
    (wrapPhase PI d - d = -(2 * PI) ∨ wrapPhase PI d - d = 0
        ∨ wrapPhase PI d - d = 2 * PI)
    ∧ ((d ≥ PI ∧ wrapHigh PI d ≤ -PI) ↔ d = PI)
    ∧ wrapPhase PI PI = PI := by
  refine ⟨?_, ?_, wrapPhase_self PI⟩
  · unfold wrapPhase wrapHigh wrapLow
    split_ifs
    · right; left; ring
    · left; ring
    · right; right; ring
    · right; left; ring
  · unfold wrapHigh
    constructor
    · rintro ⟨h1, h2⟩
      rw [if_pos h1] at h2
      linarith
    · intro h
      subst h
      refine ⟨le_refl _, ?_⟩
      rw [if_pos (le_refl _)]
      linarith

/-- C10: for every raw difference `d`, the result of the two adjustments of
lines 145 and 146 lies in `(-PI, PI]` if and only if `-3 PI < d ≤ 3 PI`. -/
theorem wrap_in_range_iff_within_three_pi (PI : α) (hPI : 0 < PI) (d : α) :
    (-PI < wrapPhase PI d ∧ wrapPhase PI d ≤ PI) ↔ (-3 * PI < d ∧ d ≤ 3 * PI) :=
  wrapPhase_mem_iff hPI d

/-- Witness for `wrap_in_range_iff_within_three_pi`: `PI := π` and
`d := -3π`, where both sides fail. -/
theorem wrap_in_range_iff_within_three_pi_witness :
    (-Real.pi < wrapPhase Real.pi (-3 * Real.pi)
        ∧ wrapPhase Real.pi (-3 * Real.pi) ≤ Real.pi)
      ↔ (-3 * Real.pi < -3 * Real.pi ∧ -3 * Real.pi ≤ 3 * Real.pi) :=
  wrap_in_range_iff_within_three_pi Real.pi Real.pi_pos (-3 * Real.pi)

end WrapClaims

/-! ## Comparison with the generalised formula -/

section RoundClaims

variable {α : Type} [LinearOrderedField α] [FloorRing α]

/-- C8, as stated, fails at `d = π` (for instance observed `π`, modelled
`0`): the code returns `π`, the formula with ties away from zero returns
`π - 2π·round(1/2) = -π`. -/
theorem wrap_differs_from_formula_at_pi :
    |Real.pi| ≤ 2 * Real.pi
    ∧ wrapPhase Real.pi Real.pi = Real.pi
    ∧ specWrap Real.pi Real.pi = -Real.pi
    ∧ wrapPhase Real.pi Real.pi ≠ specWrap Real.pi Real.pi := by
  have hpi := Real.pi_pos
  have hs : specWrap Real.pi Real.pi = -Real.pi := by
    unfold specWrap
    have hq : Real.pi / (2 * Real.pi) = 1 / 2 := by
      field_simp
      ring
    rw [hq, roundHalfAway_eq_one (le_refl _) (by norm_num)]
    push_cast
    ring
  refine ⟨?_, wrapPhase_self _, hs, ?_⟩
  · rw [abs_of_pos hpi]; linarith
  · rw [wrapPhase_self, hs]
    intro h
    linarith

/-- C8, amended: for every raw difference `d` with `|d| ≤ 2 PI` and
`d ≠ PI`, the result of the two adjustments of lines 145 and 146 equals
`d - 2 PI · round(d / (2 PI))`, the rounding being to the nearest integer with
ties away from zero. -/
theorem wrap_agrees_with_formula (PI : α) (hPI : 0 < PI) (d : α)
    (hd : |d| ≤ 2 * PI) (hne : d ≠ PI) :
    wrapPhase PI d = specWrap PI d := by
  have h := abs_le.mp hd
  unfold specWrap
  rcases lt_trichotomy d PI with h1 | h1 | h1
  · rcases le_or_lt d (-PI) with h2 | h2
    · rw [wrapPhase_of_le hPI h2, roundHalfAway_eq_neg_one
        ((lt_div_two_pi hPI).mpr (by linarith [h.1]))
        ((div_two_pi_le hPI).mpr (by linarith))]
      push_cast
      ring
    · rw [wrapPhase_of_mem h2 h1, roundHalfAway_eq_zero
        ((lt_div_two_pi hPI).mpr (by linarith))
        ((div_two_pi_lt hPI).mpr (by linarith))]
      push_cast
      ring
  · exact absurd h1 hne
  · rw [wrapPhase_of_gt h1, roundHalfAway_eq_one
      ((le_div_two_pi hPI).mpr (by linarith))
      ((div_two_pi_lt hPI).mpr (by linarith [h.2]))]
    push_cast
    ring

/-- Witness for `wrap_agrees_with_formula`: `PI := π` and `d := -π`, where
both sides are `π`. -/
theorem wrap_agrees_with_formula_witness :
    wrapPhase Real.pi (-Real.pi) = specWrap Real.pi (-Real.pi) :=
  wrap_agrees_with_formula Real.pi Real.pi_pos (-Real.pi)
    (by rw [abs_neg, abs_of_pos Real.pi_pos]; linarith [Real.pi_pos])
    (by intro h; linarith [Real.pi_pos])

end RoundClaims

/-! ## The pass over the samples -/

section PassClaims

variable {α Src Site Loc AzEl : Type} [LinearOrderedField α]

/-- C4: in a run that reaches the loops, `main` plots three series of the
length of the data, titled "Observed Phases", "Modelled Phases" and
"Result".  For every sample index `i`, the observed series holds the phase
the sample had when it was loaded, the modelled series holds
`getPhaseResponse(getAzEl(timeStamp_i, site))`, and both the result series
and the phase left in the sample are the two adjustments of lines 145 and 146
applied to (loaded phase minus modelled phase). -/
theorem three_series_consistent (E : Externals α Src Site Loc AzEl)
    (inp : Inputs α Src Site) (refSource : Src) (site : Site)
    (ds : List (IntegPeriod α))
    (hargc : 10 ≤ inp.argc) (hsrc : inp.parseSource = some refSource)
    (hok : inp.load.ok = true) (hdata : inp.load.data = some ds) (hne : ds ≠ [])
    (hsite : inp.parseSite = some site) (hplot : inp.cpgbeg = 1) :
    ∃ observed modelled result final,
      (main E inp).plots = [observed, modelled, result]
      ∧ (main E inp).data = some final
      ∧ observed.title = "Observed Phases" ∧ modelled.title = "Modelled Phases"
      ∧ result.title = "Result"
      ∧ observed.ys.length = ds.length ∧ modelled.ys.length = ds.length
      ∧ result.ys.length = ds.length ∧ final.length = ds.length
      ∧ ∀ (i : Nat) (s : IntegPeriod α), ds[i]? = some s →
          observed.ys[i]? = some (some s.phase)
          ∧ modelled.ys[i]?
              = some (some (E.getPhaseResponse site
                  (E.getAzEl refSource s.timeStamp (E.getSite site))))
          ∧ result.ys[i]?
              = some (some (wrapPhase E.PI (s.phase - E.getPhaseResponse site
                  (E.getAzEl refSource s.timeStamp (E.getSite site)))))
          ∧ (final[i]?).map IntegPeriod.phase
              = some (wrapPhase E.PI (s.phase - E.getPhaseResponse site
                  (E.getAzEl refSource s.timeStamp (E.getSite site)))) := by
  rw [main_of_success E inp refSource site ds hargc hsrc hok hdata hne hsite hplot]
  refine ⟨_, _, _, _, rfl, rfl, rfl, rfl, rfl, ?_, ?_, ?_, ?_, ?_⟩
  · simp
  · simp
  · simp
  · simp
  · intro i s hs
    simp only [List.getElem?_map, hs, Option.map_some']
    refine ⟨?_, ?_, ?_, ?_⟩ <;> trivial

/-- Witness for `three_series_consistent`: `PI := π`, the toy instrument and
one sample of time stamp `1` and observed phase `-π`. -/
theorem three_series_consistent_witness :
    ∃ observed modelled result final,
      (main (demoExternals Real.pi)
          (demoInputs [{ timeStamp := 1, amplitude := 1, phase := -Real.pi }])).plots
        = [observed, modelled, result]
      ∧ (main (demoExternals Real.pi)
          (demoInputs [{ timeStamp := 1, amplitude := 1, phase := -Real.pi }])).data
        = some final
      ∧ observed.title = "Observed Phases" ∧ modelled.title = "Modelled Phases"
      ∧ result.title = "Result"
      ∧ observed.ys.length
          = [({ timeStamp := 1, amplitude := 1, phase := -Real.pi } : IntegPeriod ℝ)].length
      ∧ modelled.ys.length
          = [({ timeStamp := 1, amplitude := 1, phase := -Real.pi } : IntegPeriod ℝ)].length
      ∧ result.ys.length
          = [({ timeStamp := 1, amplitude := 1, phase := -Real.pi } : IntegPeriod ℝ)].length
      ∧ final.length
          = [({ timeStamp := 1, amplitude := 1, phase := -Real.pi } : IntegPeriod ℝ)].length
      ∧ ∀ (i : Nat) (s : IntegPeriod ℝ),
          [({ timeStamp := 1, amplitude := 1, phase := -Real.pi } : IntegPeriod ℝ)][i]?
            = some s →
          observed.ys[i]? = some (some s.phase)
          ∧ modelled.ys[i]?
              = some (some ((demoExternals Real.pi).getPhaseResponse 0
                  ((demoExternals Real.pi).getAzEl () s.timeStamp
                    ((demoExternals Real.pi).getSite 0))))
          ∧ result.ys[i]?
              = some (some (wrapPhase (demoExternals Real.pi).PI
                  (s.phase - (demoExternals Real.pi).getPhaseResponse 0
                    ((demoExternals Real.pi).getAzEl () s.timeStamp
                      ((demoExternals Real.pi).getSite 0)))))
          ∧ (final[i]?).map IntegPeriod.phase
              = some (wrapPhase (demoExternals Real.pi).PI
                  (s.phase - (demoExternals Real.pi).getPhaseResponse 0
                    ((demoExternals Real.pi).getAzEl () s.timeStamp
                      ((demoExternals Real.pi).getSite 0)))) :=
  three_series_consistent (demoExternals Real.pi)
    (demoInputs [{ timeStamp := 1, amplitude := 1, phase := -Real.pi }]) () 0
    [{ timeStamp := 1, amplitude := 1, phase := -Real.pi }]
    (by simp [demoInputs]) rfl rfl rfl (by simp) rfl rfl

/-- C5: the correction loop keeps the number of samples and, index by index,
their time stamps and amplitudes. -/
theorem correction_changes_only_phase (E : Externals α Src Site Loc AzEl)
    (refSource : Src) (site : Site) (data : List (IntegPeriod α)) :
    (correctionLoop E refSource site data).data.length = data.length
    ∧ (correctionLoop E refSource site data).data.map IntegPeriod.timeStamp
        = data.map IntegPeriod.timeStamp
    ∧ (correctionLoop E refSource site data).data.map IntegPeriod.amplitude
        = data.map IntegPeriod.amplitude
    ∧ ∀ i : Nat,
        ((correctionLoop E refSource site data).data[i]?).map IntegPeriod.timeStamp
            = (data[i]?).map IntegPeriod.timeStamp
        ∧ ((correctionLoop E refSource site data).data[i]?).map IntegPeriod.amplitude
            = (data[i]?).map IntegPeriod.amplitude := by
  rw [correctionLoop_eq]
  refine ⟨by simp, ?_, ?_, ?_⟩
  · simp only [List.map_map]
    rfl
  · simp only [List.map_map]
    rfl
  · intro i
    simp only [List.getElem?_map, Option.map_map]
    exact ⟨rfl, rfl⟩

/-- C6: when the load reports failure, hands back a null pointer or hands
back zero samples, `main` ends with exit status 1, `phasebuf` was never
filled, nothing was plotted or written, and `_data` is as the load left it
(or still null when the run ended before the load).  A run that returns 0,
the only one that goes through the correction loop, loaded at least one
sample. -/
theorem bad_load_is_fatal (E : Externals α Src Site Loc AzEl) (inp : Inputs α Src Site) :
    ((inp.load.ok = false ∨ inp.load.data = none ∨ inp.load.numData = 0) →
        (main E inp).status = 1 ∧ (main E inp).status ≠ 0
        ∧ (main E inp).phasebuf = [] ∧ (main E inp).plots = []
        ∧ (main E inp).written = none
        ∧ ((main E inp).data = none ∨ (main E inp).data = inp.load.data))
    ∧ ((main E inp).status = 0 →
        ∃ d ds, inp.load.ok = true ∧ inp.load.data = some (d :: ds)
          ∧ (main E inp).phasebuf.length = (d :: ds).length) := by
  constructor
  · intro h
    rcases main_of_badload E inp h with hm | hm
    · rw [hm]
      exact ⟨rfl, exitFailure_status_ne_zero _, rfl, rfl, rfl, Or.inl rfl⟩
    · rw [hm]
      exact ⟨rfl, exitFailure_status_ne_zero _, rfl, rfl, rfl, Or.inr rfl⟩
  · intro h0
    by_cases hbad : inp.load.ok = false ∨ inp.load.data = none ∨ inp.load.numData = 0
    · rcases main_of_badload E inp hbad with hm | hm
      · rw [hm] at h0; exact absurd h0 (exitFailure_status_ne_zero _)
      · rw [hm] at h0; exact absurd h0 (exitFailure_status_ne_zero _)
    · have hok : inp.load.ok = true := by
        cases hb : inp.load.ok with
        | true => rfl
        | false => exact absurd (Or.inl hb) hbad
      cases hdata : inp.load.data with
      | none => exact absurd (Or.inr (Or.inl hdata)) hbad
      | some l =>
        cases l with
        | nil =>
          exact absurd (Or.inr (Or.inr (by simp [LoadResult.numData, hdata]))) hbad
        | cons d ds =>
          refine ⟨d, ds, hok, rfl, ?_⟩
          by_cases hargc : inp.argc < 10
          · have : main E inp = exitFailure none := by
              unfold main; rw [if_pos hargc]
            rw [this] at h0; exact absurd h0 (exitFailure_status_ne_zero _)
          · cases hsrc : inp.parseSource with
            | none =>
              have : main E inp = exitFailure none := by
                unfold main; rw [if_neg hargc, hsrc]
              rw [this] at h0; exact absurd h0 (exitFailure_status_ne_zero _)
            | some refSource =>
              cases hsite : inp.parseSite with
              | none =>
                have : main E inp = exitFailure inp.load.data := by
                  unfold main; rw [if_neg hargc, hsrc]
                  simp [hok, hdata, hsite, LoadResult.numData]
                rw [this] at h0; exact absurd h0 (exitFailure_status_ne_zero _)
              | some site =>
                by_cases hplot : inp.cpgbeg = 1
                · rw [main_of_success E inp refSource site (d :: ds) (by omega) hsrc hok
                    hdata (by simp) hsite hplot]
                  simp
                · have : main E inp = exitFailure inp.load.data := by
                    unfold main; rw [if_neg hargc, hsrc]
                    simp [hok, hdata, hsite, hplot, LoadResult.numData]
                  rw [this] at h0; exact absurd h0 (exitFailure_status_ne_zero _)

/-- Witness for `bad_load_is_fatal`: a load that succeeds but hands back an
empty array makes the run end with status 1, for `PI := π` and the toy
instrument. -/
theorem bad_load_is_fatal_witness :
    (main (demoExternals Real.pi) (demoInputs [])).status = 1
    ∧ (main (demoExternals Real.pi) (demoInputs [])).phasebuf = []
    ∧ (main (demoExternals Real.pi) (demoInputs [])).written = none :=
  have h := (bad_load_is_fatal (demoExternals Real.pi) (demoInputs [])).1
    (Or.inr (Or.inr rfl))
  ⟨h.1, h.2.2.1, h.2.2.2.2.1⟩

/-- C7: when two input sequences of equal length hold, at index `i`, samples
with the same time stamp and the same observed phase, then for the same site
and reference source the correction loop stores the same modelled phase in
`phasebuf[i]` and the same residual in sample `i`; these two values are
functions of the sample at index `i` alone. -/
theorem samples_corrected_independently (E : Externals α Src Site Loc AzEl)
    (refSource : Src) (site : Site) (data₁ data₂ : List (IntegPeriod α)) (i : Nat)
    (s₁ s₂ : IntegPeriod α) (_hlen : data₁.length = data₂.length)
    (h₁ : data₁[i]? = some s₁) (h₂ : data₂[i]? = some s₂)
    (hts : s₁.timeStamp = s₂.timeStamp) (hph : s₁.phase = s₂.phase) :
    (correctionLoop E refSource site data₁).phasebuf[i]?
        = (correctionLoop E refSource site data₂).phasebuf[i]?
    ∧ ((correctionLoop E refSource site data₁).data[i]?).map IntegPeriod.phase
        = ((correctionLoop E refSource site data₂).data[i]?).map IntegPeriod.phase
    ∧ (correctionLoop E refSource site data₁).phasebuf[i]?
        = some (some (modelPhase E refSource site s₁.timeStamp))
    ∧ ((correctionLoop E refSource site data₁).data[i]?).map IntegPeriod.phase
        = some (correctPhase E.PI s₁.phase (modelPhase E refSource site s₁.timeStamp)) := by
  simp only [correctionLoop_phasebuf_getElem?, correctionLoop_data_getElem?, h₁, h₂,
    Option.map_some', correctSample, hts, hph]
  refine ⟨?_, ?_, ?_, ?_⟩ <;> trivial

/-- Witness for `samples_corrected_independently`: two sequences of two
samples that differ at index 0 and in the amplitude at index 1, and agree at
index 1 in time stamp and phase; `PI := π` and the toy instrument. -/
theorem samples_corrected_independently_witness :
    (correctionLoop (demoExternals Real.pi) () 0
        [{ timeStamp := 0, amplitude := 1, phase := 0 },
         { timeStamp := 1, amplitude := 1, phase := 1 }]).phasebuf[1]?
      = (correctionLoop (demoExternals Real.pi) () 0
        [{ timeStamp := 7, amplitude := 2, phase := 3 },
         { timeStamp := 1, amplitude := 5, phase := 1 }]).phasebuf[1]?
    ∧ ((correctionLoop (demoExternals Real.pi) () 0
        [{ timeStamp := 0, amplitude := 1, phase := 0 },
         { timeStamp := 1, amplitude := 1, phase := 1 }]).data[1]?).map IntegPeriod.phase
      = ((correctionLoop (demoExternals Real.pi) () 0
        [{ timeStamp := 7, amplitude := 2, phase := 3 },
         { timeStamp := 1, amplitude := 5, phase := 1 }]).data[1]?).map IntegPeriod.phase :=
  have h := samples_corrected_independently (demoExternals Real.pi) () 0
    [{ timeStamp := 0, amplitude := 1, phase := 0 },
     { timeStamp := 1, amplitude := 1, phase := 1 }]
    [{ timeStamp := 7, amplitude := 2, phase := 3 },
     { timeStamp := 1, amplitude := 5, phase := 1 }] 1
    { timeStamp := 1, amplitude := 1, phase := 1 }
    { timeStamp := 1, amplitude := 5, phase := 1 } rfl rfl rfl rfl rfl
  ⟨h.1, h.2.1⟩

end PassClaims

end Sacrotate
